import Mathlib

/-!
Verification of the HTTP metadata inventory service core: the deduplicated
background-collection orchestrator, the collection unit, and the
`created_at`-preserving upsert.

The embedding mirrors the Python sources:
  * `app/services/collector.py`   — shared-client guard and `collect_metadata`
  * `app/services/metadata_service.py` — `create_metadata_record`,
    `get_metadata_record`, `_background_collect`,
    `schedule_background_collection`, and the module-level `_pending_urls` set
  * `app/database/repository.py`  — `upsert_metadata`, `find_metadata_by_url`
  * `app/routes/metadata.py`      — the GET read path (`get_metadata`)

Timestamps are modelled as natural numbers handed in by a clock oracle;
network responses are handed in by a fetch oracle (`HttpResult`).  The store
is an association list of documents keyed by `url`; the in-flight set is a
duplicate-free list of URL strings (insertion happens only after a negative
membership check, mirroring the Python `set`).
-/

namespace MetadataService

/-- A raw fetch result: the dictionary returned by `collect_metadata`
(`headers`, `cookies`, `page_source`). -/
structure RawMetadata where
  headers : List (String × String)
  cookies : List (String × String)
  page_source : String
deriving Repr, DecidableEq

/-- Outcome of one HTTP GET against the target URL, as observed by
`collect_metadata` through the shared httpx client: either a transport-level
failure (`httpx.RequestError`) or a response with a status code, headers,
cookies and body text. -/
inductive HttpResult where
  | requestError
  | response (status : Nat) (headers : List (String × String))
      (cookies : List (String × String)) (text : String)
deriving Repr, DecidableEq

/-- The exceptions `collect_metadata` can raise: the `RuntimeError` from
`_get_client` when the shared client was never initialised (or was closed),
`httpx.RequestError` from the GET itself, and `httpx.HTTPStatusError` from
`response.raise_for_status()`. -/
inductive CollectError where
  | runtimeNotInitialised
  | requestError
  | httpStatusError (code : Nat)
deriving Repr, DecidableEq

/-- The error taxonomy of the specification (§7): `FetchError`,
`UpstreamStatusError` with a status code, and `StoreUnavailable`. -/
inductive SpecError where
  | fetchError
  | upstreamStatusError (code : Nat)
  | storeUnavailable
deriving Repr, DecidableEq

/-- Classify a code-level exception inside the specification's taxonomy:
`httpx.RequestError` is the spec's `FetchError`, `httpx.HTTPStatusError` is
the spec's `UpstreamStatusError`; the `RuntimeError` raised for an
uninitialised client corresponds to no member of the taxonomy. -/
def toSpecError : CollectError → Option SpecError
  | .requestError => some .fetchError
  | .httpStatusError code => some (.upstreamStatusError code)
  | .runtimeNotInitialised => none

/-- The module-level `_http_client` of `collector.py`: `none` before
`create_http_client` runs and after `close_http_client` runs. The client
object itself carries no data relevant to the model. -/
abbrev ClientState : Type := Option Unit

/-- `create_http_client`: installs the shared client. -/
def create_http_client (_ : ClientState) : ClientState := some ()

/-- `close_http_client`: closes and clears the shared client. -/
def close_http_client (_ : ClientState) : ClientState := none

/-- `_get_client`: return the shared HTTP client, raising `RuntimeError`
if it is not initialised. -/
def _get_client (c : ClientState) : Except CollectError Unit :=
  match c with
  | none => .error .runtimeNotInitialised
  | some cl => .ok cl

/-- `httpx.Response.is_success`: a 2xx status code. `raise_for_status`
raises `HTTPStatusError` exactly when the status is not a success. -/
def isSuccessStatus (status : Nat) : Bool :=
  200 ≤ status && status < 300

/-- `collect_metadata(url)`: obtain the shared client (raising
`RuntimeError` before any network access when it is absent), perform the
GET (whose outcome the oracle `net` supplies), call
`response.raise_for_status()`, and package headers, cookies and page
source. -/
def collect_metadata (client : ClientState) (net : HttpResult) :
    Except CollectError RawMetadata :=
  match _get_client client with
  | .error e => .error e
  | .ok _ =>
      match net with
      | .requestError => .error .requestError
      | .response status headers cookies text =>
          if isSuccessStatus status then
            .ok ⟨headers, cookies, text⟩
          else
            .error (.httpStatusError status)

/-- The persisted entity (`MetadataDocument` in `models/metadata.py`). -/
structure MetadataDocument where
  url : String
  headers : List (String × String)
  cookies : List (String × String)
  page_source : String
  created_at : Nat
  updated_at : Nat
deriving Repr, DecidableEq

/-- The MongoDB `metadata` collection: a list of documents keyed by `url`. -/
abbrev Store : Type := List MetadataDocument

/-- `find_metadata_by_url`: look up a metadata document by URL. -/
def find_metadata_by_url (url : String) (store : Store) :
    Option MetadataDocument :=
  store.find? (fun d => d.url == url)

/-- The `$set` part of the upsert applied to an existing document: every
field of `update_data` — `doc.to_mongo_dict()` with `created_at` popped —
overwrites the old document, so `url`, `headers`, `cookies`, `page_source`
and `updated_at` come from `doc` while `created_at` is left as stored. -/
def applyUpdateSet (old doc : MetadataDocument) : MetadataDocument :=
  { url := doc.url
    headers := doc.headers
    cookies := doc.cookies
    page_source := doc.page_source
    created_at := old.created_at
    updated_at := doc.updated_at }

/-- `upsert_metadata(doc, now)`: one `update_one` with `upsert=True`,
filter `url == doc.url`, `$set` = all fields except `created_at`, and
`$setOnInsert created_at = now`. -/
def upsert_metadata (doc : MetadataDocument) (now : Nat) (store : Store) :
    Store :=
  if store.any (fun d => d.url == doc.url) then
    store.map (fun d => if d.url == doc.url then applyUpdateSet d doc else d)
  else
    store ++ [{ doc with created_at := now }]

/-- `create_metadata_record(url)` (the synchronous POST flow): run
`collect_metadata`; on failure the exception propagates and the store is
untouched; on success capture one timestamp `now`, build a document with
`created_at = updated_at = now` and the fetched fields, and upsert it. -/
def create_metadata_record (url : String) (client : ClientState)
    (net : HttpResult) (now : Nat) (store : Store) :
    Except CollectError MetadataDocument × Store :=
  match collect_metadata client net with
  | .error e => (.error e, store)
  | .ok raw =>
      let doc : MetadataDocument :=
        { url := url
          headers := raw.headers
          cookies := raw.cookies
          page_source := raw.page_source
          created_at := now
          updated_at := now }
      (.ok doc, upsert_metadata doc now store)

/-- `get_metadata_record(url)`: retrieve the record for `url`, or `none`. -/
def get_metadata_record (url : String) (store : Store) :
    Option MetadataDocument :=
  find_metadata_by_url url store

/-- The module-level `_pending_urls` in-flight tracker: a set of URL
strings.  Membership is checked before every insertion, so the list never
holds a URL twice. -/
abbrev Pending : Type := List String

/-- Result of `schedule_background_collection`: the returned boolean, the
in-flight set afterwards, and how many detached tasks the call started. -/
structure ScheduleResult where
  result : Bool
  pending : Pending
  tasksStarted : Nat
deriving Repr, DecidableEq

/-- `schedule_background_collection(url)`: if `url` is already in
`_pending_urls` return `False` without starting work; otherwise add it,
start one detached `_background_collect` task, and return `True`.  The
function contains no suspension point, so under the single-threaded
asyncio event loop the membership check and insertion are one atomic
step. -/
def schedule_background_collection (url : String) (pending : Pending) :
    ScheduleResult :=
  if pending.contains url then
    ⟨false, pending, 0⟩
  else
    ⟨true, url :: pending, 1⟩

/-- `_pending_urls.discard(url)`: remove `url` from the set if present. -/
def discardPending (url : String) (pending : Pending) : Pending :=
  pending.filter (fun u => u ≠ url)

/-- `_background_collect(url)`: run `create_metadata_record(url)`; any
exception is caught, logged and swallowed (the function returns no error),
and the `finally` block discards `url` from `_pending_urls` on every
path. -/
def _background_collect (url : String) (client : ClientState)
    (net : HttpResult) (now : Nat) (store : Store) (pending : Pending) :
    Store × Pending :=
  let r := create_metadata_record url client net now store
  (r.2, discardPending url pending)

/-- Python's `str.startswith(prefix)`, modelled on the character
sequence. -/
def strStartsWith (pre s : String) : Bool :=
  pre.data.isPrefixOf s.data

/-- Outcome of the GET read path as seen at the service boundary: a bad
request for a non-http(s) URL, a cache hit carrying the stored record, or a
cache miss carrying the boolean `schedule_background_collection`
returned. -/
inductive ResolveOutcome where
  | badRequest
  | hit (record : MetadataDocument)
  | miss (scheduled : Bool)
deriving Repr, DecidableEq

/-- `get_metadata(url)` (the GET route, the spec's `resolve`): validate the
scheme; look the URL up; on a hit return the stored record with no side
effect; on a miss call `schedule_background_collection(url)` and return
immediately.  The triple is (outcome, in-flight set afterwards, detached
tasks started). -/
def get_metadata (url : String) (store : Store) (pending : Pending) :
    ResolveOutcome × Pending × Nat :=
  if !(strStartsWith "http://" url || strStartsWith "https://" url) then
    (.badRequest, pending, 0)
  else
    match get_metadata_record url store with
    | some record => (.hit record, pending, 0)
    | none =>
        let r := schedule_background_collection url pending
        (.miss r.result, r.pending, r.tasksStarted)

/-- The HTTP body of the 202 response on a miss (`AcceptedResponse`): it
carries the acknowledgement message and the URL only, identical whether or
not a new job was scheduled. -/
def acceptedResponseBody (url : String) : String × String :=
  ("Request accepted. Metadata is being collected in the background.", url)

/-- `N` back-to-back calls of `schedule_background_collection(url)` with no
job completion in between: the list of returned booleans and the final
in-flight set.  Because the scheduler never suspends, any concurrent
execution of the calls on the event loop is exactly this serial one. -/
def scheduleMany (url : String) : Nat → Pending → List Bool × Pending
  | 0, pending => ([], pending)
  | n + 1, pending =>
      let r := schedule_background_collection url pending
      let rest := scheduleMany url n r.pending
      (r.result :: rest.1, rest.2)

/-- The data-model invariant of §3: every stored record satisfies
`created_at ≤ updated_at`. -/
def storeInv (store : Store) : Prop :=
  ∀ d ∈ store, d.created_at ≤ d.updated_at

instance (store : Store) : Decidable (storeInv store) := by
  unfold storeInv
  exact List.decidableBAll _ store

/-! ### Helper lemmas about the upsert and the in-flight set -/

/-- Looking up `doc.url` after an upsert that found an existing record `d`
yields that record with every field overwritten from `doc` except
`created_at`. -/
theorem find_map_update (doc : MetadataDocument) :
    ∀ (store : Store) (d : MetadataDocument),
      store.find? (fun x => x.url == doc.url) = some d →
      (store.map
          (fun x => if x.url == doc.url then applyUpdateSet x doc else x)).find?
          (fun x => x.url == doc.url) = some (applyUpdateSet d doc) := by
  intro store
  induction store with
  | nil => intro d h; simp at h
  | cons hd tl ih =>
      intro d h
      by_cases hhd : (hd.url == doc.url) = true
      · simp only [List.find?_cons, hhd] at h
        obtain rfl : hd = d := by simpa using h
        have hnew : ((applyUpdateSet hd doc).url == doc.url) = true := by
          simp [applyUpdateSet]
        simp only [List.map_cons, if_pos hhd, List.find?_cons, hnew]
      · have hfalse : (hd.url == doc.url) = false := Bool.eq_false_iff.mpr hhd
        simp only [List.find?_cons, hfalse] at h
        have hmap : (hd :: tl).map
              (fun x => if (x.url == doc.url) = true then applyUpdateSet x doc
                else x)
            = hd :: tl.map
              (fun x => if (x.url == doc.url) = true then applyUpdateSet x doc
                else x) := by
          rw [List.map_cons, if_neg hhd]
        rw [hmap, List.find?_cons, hfalse]
        exact ih d h

/-- Upserting when a record for `doc.url` already exists: the stored record
keeps its `created_at` and takes every other field from `doc`. -/
theorem find_upsert_existing (doc : MetadataDocument) (now : Nat)
    (store : Store) (d : MetadataDocument)
    (h : find_metadata_by_url doc.url store = some d) :
    find_metadata_by_url doc.url (upsert_metadata doc now store) =
      some (applyUpdateSet d doc) := by
  have h' : store.find? (fun x => x.url == doc.url) = some d := h
  have hp : (d.url == doc.url) = true := by
    have hq := List.find?_some h'
    simpa using hq
  have hany : store.any (fun x => x.url == doc.url) = true :=
    List.any_eq_true.mpr ⟨d, List.mem_of_find?_eq_some h', hp⟩
  unfold upsert_metadata
  rw [if_pos hany]
  exact find_map_update doc store d h'

/-- Upserting when no record for `doc.url` exists: the inserted record is
`doc` with `created_at` set to `now` by the insert-only clause. -/
theorem find_upsert_absent (doc : MetadataDocument) (now : Nat)
    (store : Store) (h : find_metadata_by_url doc.url store = none) :
    find_metadata_by_url doc.url (upsert_metadata doc now store) =
      some { doc with created_at := now } := by
  have h' : store.find? (fun x => x.url == doc.url) = none := h
  have hany : store.any (fun x => x.url == doc.url) = false := by
    rw [Bool.eq_false_iff]
    intro hc
    obtain ⟨x, hx, hpx⟩ := List.any_eq_true.mp hc
    exact (List.find?_eq_none.mp h' x hx) hpx
  unfold upsert_metadata
  rw [if_neg (by simp [hany])]
  unfold find_metadata_by_url
  rw [List.find?_append, h']
  simp

/-- After any upsert, a record for `doc.url` is present and carries
`doc`'s `headers`, `cookies`, `page_source` and `updated_at`. -/
theorem find_upsert (doc : MetadataDocument) (now : Nat) (store : Store) :
    ∃ r, find_metadata_by_url doc.url (upsert_metadata doc now store) =
        some r ∧ r.url = doc.url ∧ r.headers = doc.headers ∧
        r.cookies = doc.cookies ∧ r.page_source = doc.page_source ∧
        r.updated_at = doc.updated_at := by
  cases hf : find_metadata_by_url doc.url store with
  | none =>
      exact ⟨{ doc with created_at := now }, find_upsert_absent doc now store hf,
        rfl, rfl, rfl, rfl, rfl⟩
  | some d =>
      exact ⟨applyUpdateSet d doc, find_upsert_existing doc now store d hf,
        rfl, rfl, rfl, rfl, rfl⟩

/-- A URL is never a member of the in-flight set after being discarded. -/
theorem not_mem_discardPending (url : String) (pending : Pending) :
    url ∉ discardPending url pending := by
  unfold discardPending
  simp [List.mem_filter]

/-- Scheduling always succeeds right after the URL has been discarded. -/
theorem schedule_after_discard (url : String) (pending : Pending) :
    (schedule_background_collection url (discardPending url pending)).result
      = true := by
  unfold schedule_background_collection
  rw [if_neg]
  intro hc
  exact not_mem_discardPending url pending (List.elem_iff.mp hc)

/-- A successful GET with a 2xx status yields the fetched headers, cookies
and body. -/
theorem collect_metadata_success (status : Nat)
    (headers cookies : List (String × String)) (text : String)
    (h : isSuccessStatus status = true) :
    collect_metadata (some ()) (.response status headers cookies text) =
      Except.ok ⟨headers, cookies, text⟩ := by
  simp only [collect_metadata, _get_client]
  rw [if_pos h]

/-- A non-2xx status makes `raise_for_status` raise `HTTPStatusError`. -/
theorem collect_metadata_badStatus (status : Nat)
    (headers cookies : List (String × String)) (text : String)
    (h : isSuccessStatus status = false) :
    collect_metadata (some ()) (.response status headers cookies text) =
      Except.error (.httpStatusError status) := by
  simp only [collect_metadata, _get_client]
  rw [if_neg (by simp [h])]

/-- Scheduling for a URL not in flight: inserted, one task, `true`. -/
theorem schedule_not_mem (url : String) (pending : Pending)
    (h : url ∉ pending) :
    schedule_background_collection url pending = ⟨true, url :: pending, 1⟩ := by
  unfold schedule_background_collection
  rw [if_neg (fun hc => h (List.elem_iff.mp hc))]

/-- Unfolding one scheduling round of `scheduleMany`. -/
theorem scheduleMany_succ (url : String) (n : Nat) (pending : Pending) :
    scheduleMany url (n + 1) pending =
      ((schedule_background_collection url pending).result ::
        (scheduleMany url n
          (schedule_background_collection url pending).pending).1,
       (scheduleMany url n
         (schedule_background_collection url pending).pending).2) := rfl

/-- While the URL is in flight, every further scheduling call returns
`false` and leaves the set untouched. -/
theorem scheduleMany_mem (url : String) :
    ∀ (n : Nat) (pending : Pending), url ∈ pending →
      scheduleMany url n pending = (List.replicate n false, pending) := by
  intro n
  induction n with
  | zero => intro pending _; rfl
  | succ m ih =>
      intro pending hmem
      unfold scheduleMany schedule_background_collection
      rw [if_pos (List.elem_iff.mpr hmem)]
      simp only [ih pending hmem, List.replicate_succ]

/-! ### Claim theorems -/

/-- C1: `schedule_background_collection` returns `true` exactly when the
URL was not in the in-flight set at the time of the call; on a `true`
return the URL is inserted into the set and exactly one detached task is
started, and on a `false` return the set is unchanged and no new work is
started. -/
theorem C1_schedule_iff_not_inflight (url : String) (pending : Pending) :
    ((schedule_background_collection url pending).result = true ↔
      url ∉ pending) ∧
    (schedule_background_collection url pending).pending =
      (if url ∈ pending then pending else url :: pending) ∧
    (schedule_background_collection url pending).tasksStarted =
      (if url ∈ pending then 0 else 1) := by
  unfold schedule_background_collection
  by_cases h : url ∈ pending
  · rw [if_pos (List.elem_iff.mpr h)]
    simp [h]
  · rw [if_neg (fun hc => h (List.elem_iff.mp hc))]
    simp [h]

/-- C3: when a background collection task for a URL finishes — by success
or by any exception — the URL is removed from the in-flight set, the
exception is swallowed (`_background_collect` is total, returning no
error for any fetch outcome), and a subsequent scheduling call for the URL
returns `true` again. -/
theorem C3_background_reap (url : String) (client : ClientState)
    (net : HttpResult) (now : Nat) (store : Store) (pending : Pending) :
    (_background_collect url client net now store pending).2 =
      discardPending url pending ∧
    url ∉ (_background_collect url client net now store pending).2 ∧
    (schedule_background_collection url
      (_background_collect url client net now store pending).2).result
        = true := by
  exact ⟨rfl, not_mem_discardPending url pending,
    schedule_after_discard url pending⟩

/-- C4: the in-flight check-and-insert is one atomic step (the scheduler
never suspends, so concurrent calls serialize on the event loop): of
`N ≥ 1` scheduling calls for the same URL made before any job completes,
exactly one returns `true` and `N − 1` return `false`. -/
theorem C4_dedup_exactly_one (url : String) (pending : Pending) (N : Nat)
    (habsent : url ∉ pending) (hN : 1 ≤ N) :
    (scheduleMany url N pending).1.count true = 1 ∧
    (scheduleMany url N pending).1.count false = N - 1 := by
  obtain ⟨n, rfl⟩ : ∃ n, N = n + 1 :=
    ⟨N - 1, (Nat.succ_pred_eq_of_pos hN).symm⟩
  have h1 : scheduleMany url (n + 1) pending =
      (true :: (scheduleMany url n (url :: pending)).1,
       (scheduleMany url n (url :: pending)).2) := by
    rw [scheduleMany_succ, schedule_not_mem url pending habsent]
  rw [h1, scheduleMany_mem url n (url :: pending)
    (List.mem_cons_self url pending)]
  simp [List.count_cons, List.count_replicate]

/-- C4 witness: three calls on an empty in-flight set — one `true`, two
`false`. -/
theorem C4_dedup_exactly_one_witness :
    (scheduleMany "https://example.com" 3 []).1.count true = 1 ∧
    (scheduleMany "https://example.com" 3 []).1.count false = 3 - 1 :=
  C4_dedup_exactly_one "https://example.com" [] 3 (by simp) (by decide)

/-- C10: with the shared HTTP client uninitialised — never created, or
closed by `close_http_client` — `collect_metadata` fails with the
`RuntimeError`, independently of the network oracle (no network access)
and with the store untouched (no store access); every synchronous create
and background collection therefore fails the same way, and this error
maps to no member of the spec's
`FetchError`/`UpstreamStatusError`/`StoreUnavailable` taxonomy. -/
theorem C10_uninitialised_client (url : String) (net nx : HttpResult)
    (now : Nat) (store : Store) (pending : Pending) (c : ClientState) :
    collect_metadata none net = .error .runtimeNotInitialised ∧
    collect_metadata none net = collect_metadata none nx ∧
    close_http_client c = none ∧
    create_metadata_record url none net now store =
      (.error .runtimeNotInitialised, store) ∧
    _background_collect url none net now store pending =
      (store, discardPending url pending) ∧
    toSpecError .runtimeNotInitialised = none :=
  ⟨rfl, rfl, rfl, rfl, rfl, rfl⟩

/-- C2: after the first successful collect-and-store for a URL, every later
successful collect-and-store leaves the stored `created_at` unchanged —
the upsert pops `created_at` from its overwrite set and sets it only
through the insert-only clause. -/
theorem C2_created_at_stability (url : String) (client : ClientState)
    (net : HttpResult) (raw : RawMetadata) (now : Nat) (store : Store)
    (d : MetadataDocument)
    (hok : collect_metadata client net = Except.ok raw)
    (hfound : find_metadata_by_url url store = some d) :
    ∃ d', find_metadata_by_url url
        (create_metadata_record url client net now store).2 = some d' ∧
      d'.created_at = d.created_at := by
  unfold create_metadata_record
  rw [hok]
  exact ⟨applyUpdateSet d
      ⟨url, raw.headers, raw.cookies, raw.page_source, now, now⟩,
    find_upsert_existing
      ⟨url, raw.headers, raw.cookies, raw.page_source, now, now⟩
      now store d hfound, rfl⟩

/-- C2 witness: re-collecting a URL first stored with `created_at = 1`
leaves `created_at = 1`. -/
theorem C2_created_at_stability_witness :
    ∃ d', find_metadata_by_url "https://example.com"
        (create_metadata_record "https://example.com" (some ())
          (.response 200 [("content-type", "text/html")] []
            "<html>v2</html>") 5
          [⟨"https://example.com", [], [], "<html>v1</html>", 1, 1⟩]).2
        = some d' ∧
      d'.created_at =
        (⟨"https://example.com", [], [], "<html>v1</html>", 1, 1⟩ :
          MetadataDocument).created_at :=
  C2_created_at_stability "https://example.com" (some ())
    (.response 200 [("content-type", "text/html")] [] "<html>v2</html>")
    ⟨[("content-type", "text/html")], [], "<html>v2</html>"⟩ 5
    [⟨"https://example.com", [], [], "<html>v1</html>", 1, 1⟩]
    ⟨"https://example.com", [], [], "<html>v1</html>", 1, 1⟩
    (by rfl) (by rfl)

/-- C5: a successful synchronous collect-and-store for a previously absent
URL persists a record whose headers, cookies and body are exactly the
fetched values and whose `created_at` and `updated_at` both equal the one
timestamp `now` captured after the fetch succeeded; the same document is
returned to the caller. -/
theorem C5_create_inserts (url : String) (status : Nat)
    (headers cookies : List (String × String)) (text : String)
    (now : Nat) (store : Store)
    (habsent : find_metadata_by_url url store = none)
    (hsuccess : isSuccessStatus status = true) :
    (create_metadata_record url (some ())
        (.response status headers cookies text) now store).1 =
      Except.ok ⟨url, headers, cookies, text, now, now⟩ ∧
    find_metadata_by_url url
      (create_metadata_record url (some ())
        (.response status headers cookies text) now store).2 =
      some ⟨url, headers, cookies, text, now, now⟩ := by
  unfold create_metadata_record
  rw [collect_metadata_success status headers cookies text hsuccess]
  exact ⟨rfl,
    find_upsert_absent ⟨url, headers, cookies, text, now, now⟩
      now store habsent⟩

/-- C5 witness: Scenario C — collecting `https://example.com` into an
empty store persists the fetched body with `created_at = updated_at`. -/
theorem C5_create_inserts_witness :
    (create_metadata_record "https://example.com" (some ())
        (.response 200 [("content-type", "text/html")] []
          "<html>v1</html>") 3 []).1 =
      Except.ok ⟨"https://example.com", [("content-type", "text/html")], [],
        "<html>v1</html>", 3, 3⟩ ∧
    find_metadata_by_url "https://example.com"
      (create_metadata_record "https://example.com" (some ())
        (.response 200 [("content-type", "text/html")] []
          "<html>v1</html>") 3 []).2 =
      some ⟨"https://example.com", [("content-type", "text/html")], [],
        "<html>v1</html>", 3, 3⟩ :=
  C5_create_inserts "https://example.com" 200
    [("content-type", "text/html")] [] "<html>v1</html>" 3 []
    (by rfl) (by rfl)

/-- C7: if the fetch step of a synchronous collect-and-store fails — a
network failure or a non-success upstream status — the typed error
propagates to the caller, the store is left unchanged, and for a
previously absent URL no record (not even a partial one) is written; the
error belongs to the spec's `FetchError`/`UpstreamStatusError`
taxonomy. -/
theorem C7_fetch_failure (url : String) (net : HttpResult) (now : Nat)
    (store : Store) (e : CollectError)
    (hfail : collect_metadata (some ()) net = Except.error e) :
    create_metadata_record url (some ()) net now store =
      (Except.error e, store) ∧
    (find_metadata_by_url url store = none →
      find_metadata_by_url url
        (create_metadata_record url (some ()) net now store).2 = none) ∧
    (toSpecError e = some .fetchError ∨
      ∃ code, toSpecError e = some (.upstreamStatusError code)) := by
  have hcreate : create_metadata_record url (some ()) net now store =
      (Except.error e, store) := by
    unfold create_metadata_record
    rw [hfail]
  refine ⟨hcreate, ?_, ?_⟩
  · intro habsent
    rw [hcreate]
    exact habsent
  · cases net with
    | requestError =>
        have he : CollectError.requestError = e := by
          have h0 : collect_metadata (some ()) .requestError =
              Except.error .requestError := rfl
          rw [h0] at hfail
          exact (Except.error.injEq _ _).mp hfail
        left
        rw [← he]
        rfl
    | response status headers cookies text =>
        by_cases hsucc : isSuccessStatus status = true
        · exfalso
          rw [collect_metadata_success status headers cookies text hsucc]
            at hfail
          cases hfail
        · have he : CollectError.httpStatusError status = e := by
            rw [collect_metadata_badStatus status headers cookies text
              (Bool.eq_false_iff.mpr hsucc)] at hfail
            exact (Except.error.injEq _ _).mp hfail
          right
          refine ⟨status, ?_⟩
          rw [← he]
          rfl

/-- C7 witness: Scenario E — a fetch timeout during a synchronous create
leaves the empty store empty and reports the spec's `FetchError`. -/
theorem C7_fetch_failure_witness :
    create_metadata_record "https://example.com" (some ())
      .requestError 3 [] = (Except.error .requestError, []) ∧
    (find_metadata_by_url "https://example.com" ([] : Store) = none →
      find_metadata_by_url "https://example.com"
        (create_metadata_record "https://example.com" (some ())
          .requestError 3 []).2 = none) ∧
    (toSpecError .requestError = some .fetchError ∨
      ∃ code, toSpecError .requestError =
        some (.upstreamStatusError code)) :=
  C7_fetch_failure "https://example.com" .requestError 3 []
    .requestError (by rfl)

/-- The upsert preserves the `created_at ≤ updated_at` invariant whenever
the write's timestamps are no earlier than the stored creation times. -/
theorem storeInv_upsert (doc : MetadataDocument) (now : Nat) (store : Store)
    (hinv : storeInv store) (hnow : now ≤ doc.updated_at)
    (hclock : ∀ d ∈ store, d.created_at ≤ doc.updated_at) :
    storeInv (upsert_metadata doc now store) := by
  unfold upsert_metadata
  by_cases hany : store.any (fun d => d.url == doc.url) = true
  · rw [if_pos hany]
    intro d hd
    obtain ⟨x, hx, hxd⟩ := List.mem_map.mp hd
    by_cases hmatch : (x.url == doc.url) = true
    · rw [if_pos hmatch] at hxd
      subst hxd
      exact hclock x hx
    · rw [if_neg hmatch] at hxd
      subst hxd
      exact hinv x hx
  · rw [if_neg hany]
    intro d hd
    rcases List.mem_append.mp hd with h | h
    · exact hinv d h
    · have hd' : d = { doc with created_at := now } := by simpa using h
      subst hd'
      exact hnow

/-- C6: after two successful collections for the same URL with different
fetched bodies, the stored record's body, headers and cookies are replaced
wholesale with the second collection's values, and `updated_at` strictly
increases from the first collection to the second (the clock having
advanced between them). -/
theorem C6_second_collection_wins (url : String) (st1 st2 : Nat)
    (h1 c1 h2 c2 : List (String × String)) (b1 b2 : String)
    (t1 t2 : Nat) (store : Store)
    (hs1 : isSuccessStatus st1 = true) (hs2 : isSuccessStatus st2 = true)
    (_hbody : b1 ≠ b2) (hclock : t1 < t2) :
    ∃ r1 r2,
      find_metadata_by_url url
        (create_metadata_record url (some ()) (.response st1 h1 c1 b1) t1
          store).2 = some r1 ∧
      find_metadata_by_url url
        (create_metadata_record url (some ()) (.response st2 h2 c2 b2) t2
          (create_metadata_record url (some ()) (.response st1 h1 c1 b1) t1
            store).2).2 = some r2 ∧
      r2.headers = h2 ∧ r2.cookies = c2 ∧ r2.page_source = b2 ∧
      r1.updated_at = t1 ∧ r2.updated_at = t2 ∧
      r1.updated_at < r2.updated_at := by
  have e1 : (create_metadata_record url (some ())
        (.response st1 h1 c1 b1) t1 store).2 =
      upsert_metadata ⟨url, h1, c1, b1, t1, t1⟩ t1 store := by
    unfold create_metadata_record
    rw [collect_metadata_success st1 h1 c1 b1 hs1]
  have e2 : (create_metadata_record url (some ())
        (.response st2 h2 c2 b2) t2
        (upsert_metadata ⟨url, h1, c1, b1, t1, t1⟩ t1 store)).2 =
      upsert_metadata ⟨url, h2, c2, b2, t2, t2⟩ t2
        (upsert_metadata ⟨url, h1, c1, b1, t1, t1⟩ t1 store) := by
    unfold create_metadata_record
    rw [collect_metadata_success st2 h2 c2 b2 hs2]
  obtain ⟨r1, hr1, _, _, _, _, hr1upd⟩ :=
    find_upsert ⟨url, h1, c1, b1, t1, t1⟩ t1 store
  obtain ⟨r2, hr2, _, hr2h, hr2c, hr2b, hr2upd⟩ :=
    find_upsert ⟨url, h2, c2, b2, t2, t2⟩ t2
      (upsert_metadata ⟨url, h1, c1, b1, t1, t1⟩ t1 store)
  refine ⟨r1, r2, ?_, ?_, hr2h, hr2c, hr2b, hr1upd, hr2upd, ?_⟩
  · rw [e1]
    exact hr1
  · rw [e1, e2]
    exact hr2
  · rw [hr1upd, hr2upd]
    exact hclock

/-- C6 witness: Scenario C then Scenario D — v1 at time 1, v2 at time 2:
the stored record holds v2's fields and a strictly larger
`updated_at`. -/
theorem C6_second_collection_wins_witness :
    ∃ r1 r2,
      find_metadata_by_url "https://example.com"
        (create_metadata_record "https://example.com" (some ())
          (.response 200 [("content-type", "text/html")] []
            "<html>v1</html>") 1 []).2 = some r1 ∧
      find_metadata_by_url "https://example.com"
        (create_metadata_record "https://example.com" (some ())
          (.response 200 [("x", "y")] [("s", "t")] "<html>v2</html>") 2
          (create_metadata_record "https://example.com" (some ())
            (.response 200 [("content-type", "text/html")] []
              "<html>v1</html>") 1 []).2).2 = some r2 ∧
      r2.headers = [("x", "y")] ∧ r2.cookies = [("s", "t")] ∧
      r2.page_source = "<html>v2</html>" ∧
      r1.updated_at = 1 ∧ r2.updated_at = 2 ∧
      r1.updated_at < r2.updated_at :=
  C6_second_collection_wins "https://example.com" 200 200
    [("content-type", "text/html")] [] [("x", "y")] [("s", "t")]
    "<html>v1</html>" "<html>v2</html>" 1 2 []
    (by rfl) (by rfl) (by decide) (by decide)

/-- C8: the read path returns the stored record as-is with no side effects
on a hit (in-flight set unchanged, no task started; the operation takes
the store read-only, so there is no store write), and on a miss invokes
the scheduler and immediately returns a miss outcome carrying the boolean
the scheduler returned — whether a job was newly scheduled. -/
theorem C8_resolve (url : String) (store : Store) (pending : Pending)
    (hvalid : (strStartsWith "http://" url ||
      strStartsWith "https://" url) = true) :
    (∀ d, find_metadata_by_url url store = some d →
      get_metadata url store pending = (.hit d, pending, 0)) ∧
    (find_metadata_by_url url store = none →
      get_metadata url store pending =
        (.miss (schedule_background_collection url pending).result,
         (schedule_background_collection url pending).pending,
         (schedule_background_collection url pending).tasksStarted)) := by
  constructor
  · intro d hd
    have hd' : get_metadata_record url store = some d := hd
    unfold get_metadata
    rw [if_neg (by simp [hvalid]), hd']
  · intro hnone
    have hn' : get_metadata_record url store = none := hnone
    unfold get_metadata
    rw [if_neg (by simp [hvalid]), hn']

/-- C8 witness: Scenario A — an unseen valid URL resolves to a miss that
reports the newly scheduled job; a seeded store resolves to a hit with no
state change. -/
theorem C8_resolve_witness :
    (∀ d, find_metadata_by_url "https://example.com" ([] : Store) = some d →
      get_metadata "https://example.com" [] [] = (.hit d, [], 0)) ∧
    (find_metadata_by_url "https://example.com" ([] : Store) = none →
      get_metadata "https://example.com" [] [] =
        (.miss (schedule_background_collection "https://example.com"
          []).result,
         (schedule_background_collection "https://example.com" []).pending,
         (schedule_background_collection "https://example.com"
           []).tasksStarted)) :=
  C8_resolve "https://example.com" [] [] (by decide)

/-- C9: every persisted record satisfies `created_at ≤ updated_at`: an
insert sets both fields to the same timestamp, and an update sets
`updated_at` to the fresh timestamp while preserving `created_at`, so any
collect-and-store whose timestamp is no earlier than the stored creation
times (a monotone clock) preserves the invariant. -/
theorem C9_created_le_updated (url : String) (client : ClientState)
    (net : HttpResult) (now : Nat) (store : Store)
    (hinv : storeInv store)
    (hclock : ∀ d ∈ store, d.created_at ≤ now) :
    storeInv (create_metadata_record url client net now store).2 := by
  unfold create_metadata_record
  cases hc : collect_metadata client net with
  | error e => exact hinv
  | ok raw =>
      exact storeInv_upsert
        ⟨url, raw.headers, raw.cookies, raw.page_source, now, now⟩
        now store hinv (Nat.le_refl now) hclock

/-- C9 witness: refreshing a store satisfying the invariant at a later
timestamp keeps the invariant. -/
theorem C9_created_le_updated_witness :
    storeInv (create_metadata_record "https://example.com" (some ())
      (.response 200 [] [] "<html>v2</html>") 5
      [⟨"https://example.com", [], [], "<html>v1</html>", 1, 2⟩]).2 :=
  C9_created_le_updated "https://example.com" (some ())
    (.response 200 [] [] "<html>v2</html>") 5
    [⟨"https://example.com", [], [], "<html>v1</html>", 1, 2⟩]
    (by decide) (by decide)

end MetadataService
